import Mathlib

/-
Verification development for the prometheus-hydrao-exporter repository.

Shallow embedding conventions:
- Go time.Time and time.Duration are modelled as Int nanoseconds.
  The Go zero time value (t.IsZero()) is modelled as the integer 0.
- Machine floats (float64 metric values) are modelled as rationals.
- Network and JSON effects are modelled by passing the decoded outcome of the
  single upstream call a function performs as an explicit argument
  (HTTPResult for the sessions endpoint, FetchResult for the device fetch).
- The fire-and-forget refresh task launched by Collect is linearized as two
  atomic steps: at launch the first assignment of RefreshData
  (lastRefresh = now) runs; at completion the remainder (error, duration and,
  on success, the lock-guarded cache commit) runs.  The lock-guarded commit of
  cacheTimestamp together with cachedShowerHeadsData is one atomic step,
  mirroring cacheLock.
-/

namespace Hydrao

/-- One second expressed in nanoseconds (Go time.Second). -/
def second : Int := 1000000000

/-- Credentials, from the Config struct of internal/hydrao/api.go. -/
structure Config where
  email : String
  password : String
  apiKey : String
deriving DecidableEq

/-- Session state, from the SessionInfo struct of internal/hydrao/api.go.
expiresIn is the token lifetime in seconds (the int16 expires_in field);
tokenRefresh is the last-renewed timestamp in nanoseconds. -/
structure SessionInfo where
  accessToken : String
  refreshToken : String
  expiresIn : Int
  tokenRefresh : Int
  config : Config
deriving DecidableEq

/-- The decoded body of a successful POST /sessions response. -/
structure TokenPayload where
  accessToken : String
  refreshToken : String
  expiresIn : Int
deriving DecidableEq

/-- Outcome of the single HTTP POST of a renewal attempt: a transport error,
or a response with a status code and a body (none when the body fails to
decode as a token payload). -/
inductive HTTPResult where
  | transportError (msg : String)
  | response (status : Int) (body : Option TokenPayload)
deriving DecidableEq

/-- processHTTPResponse of internal/hydrao/api.go: a non-200 status is an
error, otherwise the body is decoded into the holder. -/
def processHTTPResponse (r : HTTPResult) : Except String TokenPayload :=
  match r with
  | .transportError e => .error e
  | .response status body =>
    if status ≠ 200 then .error ("bad http return code " ++ toString status)
    else
      match body with
      | none => .error "json decode error"
      | some p => .ok p

/-- RefreshSession of internal/hydrao/api.go: exchanges the refresh token.
On success the three token fields are replaced and TokenRefresh is set to
now; on any failure the session is left unchanged and the error returned. -/
def RefreshSession (s : SessionInfo) (now : Int) (r : HTTPResult) :
    SessionInfo × Option String :=
  match processHTTPResponse r with
  | .error e => (s, some e)
  | .ok p =>
      ({ s with
          accessToken := p.accessToken
          refreshToken := p.refreshToken
          expiresIn := p.expiresIn
          tokenRefresh := now }, none)

/-- The authorized GET request doHTTPGet issues: the headers derived from the
session state at the moment the request is sent. -/
structure GetRequest where
  apiKey : String
  authorization : String
deriving DecidableEq

/-- doHTTPGet of internal/hydrao/api.go (lines 198-224).  The renewal check
is the literal source condition
now.Sub(TokenRefresh) > Duration(ExpiresIn)*Second - Duration(100)*Second.
When the check fires, RefreshSession runs; if it fails its error is returned
and no GET request is issued; otherwise the GET is issued carrying the
current access token. -/
def doHTTPGet (s : SessionInfo) (now : Int) (r : HTTPResult) :
    SessionInfo × Except String GetRequest :=
  if s.expiresIn * second - 100 * second < now - s.tokenRefresh then
    match RefreshSession s now r with
    | (s2, some e) => (s2, .error e)
    | (s2, none) => (s2, .ok { apiKey := s2.config.apiKey, authorization := s2.accessToken })
  else
    (s, .ok { apiKey := s.config.apiKey, authorization := s.accessToken })

/-- A sample session whose elapsed time can be set by choosing now. -/
def sampleSession : SessionInfo :=
  { accessToken := "oldAccess"
    refreshToken := "oldRefresh"
    expiresIn := 3600
    tokenRefresh := 0
    config := { email := "e", password := "p", apiKey := "k" } }

/-- A sample decoded renewal payload. -/
def samplePayload : TokenPayload :=
  { accessToken := "newAccess", refreshToken := "newRefresh", expiresIn := 7200 }

end Hydrao

namespace Collector

/-- Modelled from the spec: the hydrao.Threshold record type consumed by
collectShowerHeadData is not declared under src; per the spec a threshold
entry carries a numeric liter value and a color category label. -/
structure Threshold where
  liter : Int
  color : String
deriving DecidableEq

/-- Modelled from the spec: the hydrao.Shower per-use-session record type
consumed by collectShowerHeadData is not declared under src; the fields are
exactly those the collector reads. -/
structure Shower where
  deviceUUID : String
  showerID : Int
  flow : Int
  duration : Int
  temperature : Int
  volume : Int
  soapingTime : Int
deriving DecidableEq

/-- Device record, from the ShowerHead struct of internal/hydrao/api.go,
restricted to the fields the collector consumes.  The showers field
(showerhead.Showers, read by collectShowerHeadData) is modelled from the
spec, its declaration not being under src. -/
structure ShowerHead where
  deviceUUID : String
  type : String
  label : String
  lastSyncDate : Int
  refShowerDuration : Int
  previousFlow : Int
  flow : Rat
  isLastSyncComplete : Int
  thresholdRequest : String
  showers : List Shower
deriving DecidableEq

/-- One exported const metric: descriptor name, gauge value, label values. -/
structure Metric where
  name : String
  value : Rat
  labels : List String
deriving DecidableEq

/-- Collector state, from the HydraoCollector struct of the collector file.
refreshInterval and lastRefreshDuration are time.Duration nanoseconds;
lastRefresh and cacheTimestamp are time.Time (0 = Go zero time).
cachedShowerHeadsData is none when the Go slice is nil. -/
structure HydraoCollector where
  refreshInterval : Int
  lastRefresh : Int
  lastRefreshError : Option String
  lastRefreshDuration : Int
  cacheTimestamp : Int
  cachedShowerHeadsData : Option (List ShowerHead)
deriving DecidableEq

/-- New of the collector file: the only field set is refreshInterval := 10,
an untyped Go constant assigned to a time.Duration, hence 10 nanoseconds.
All other fields are Go zero values. -/
def New : HydraoCollector :=
  { refreshInterval := 10
    lastRefresh := 0
    lastRefreshError := none
    lastRefreshDuration := 0
    cacheTimestamp := 0
    cachedShowerHeadsData := none }

/-- Outcome of one getShowerheads call performed by a refresh task. -/
inductive FetchResult where
  | failure (msg : String)
  | success (showerHeads : List ShowerHead)
deriving DecidableEq

/-- The first assignment of RefreshData (line c.lastRefresh = now), which
runs when the refresh task starts. -/
def refreshStart (c : HydraoCollector) (now : Int) : HydraoCollector :=
  { c with lastRefresh := now }

/-- The remainder of RefreshData after the fetch returns: the deferred
duration write, the error write, and on success the commit of cacheTimestamp
and cachedShowerHeadsData performed together under cacheLock. -/
def refreshFinish (c : HydraoCollector) (now endTime : Int)
    (fetch : FetchResult) : HydraoCollector :=
  match fetch with
  | .failure e =>
      { c with
          lastRefreshError := some e
          lastRefreshDuration := endTime - now }
  | .success shs =>
      { c with
          lastRefreshError := none
          lastRefreshDuration := endTime - now
          cacheTimestamp := now
          cachedShowerHeadsData := some shs }

/-- RefreshData of the collector file, run to completion: records the attempt
timestamp first, then the fetch outcome. -/
def RefreshData (c : HydraoCollector) (now endTime : Int)
    (fetch : FetchResult) : HydraoCollector :=
  refreshFinish (refreshStart c now) now endTime fetch

/-- The up gauge of Collect: 1.0 unless lastRefresh is the zero time or the
last refresh recorded an error. -/
def upValue (c : HydraoCollector) : Rat :=
  if c.lastRefresh = 0 ∨ c.lastRefreshError ≠ none then 0 else 1

/-- Go Duration.Seconds(): the duration divided by one second, as a float. -/
def durationSeconds (d : Int) : Rat := (d : Rat) / 1000000000

/-- convertTime of the collector file: 0 for the zero time, otherwise the
Unix seconds of the timestamp. -/
def convertTime (t : Int) : Rat :=
  if t = 0 then 0 else ((t / 1000000000 : Int) : Rat)

/-- The device label values [device_uuid, type, label]. -/
def showerHeadLabels (sh : ShowerHead) : List String :=
  [sh.deviceUUID, sh.type, sh.label]

/-- The six per-device gauges collectShowerHeadData sends before parsing the
embedded threshold document. -/
def showerHeadBaseMetrics (sh : ShowerHead) : List Metric :=
  [ { name := "hydrao_showersheads_device", value := 1, labels := showerHeadLabels sh }
  , { name := "hydrao_showersheads_updated", value := convertTime sh.lastSyncDate,
      labels := showerHeadLabels sh }
  , { name := "hydrao_showersheads_ref_shower_duration", value := (sh.refShowerDuration : Rat),
      labels := showerHeadLabels sh }
  , { name := "hydrao_showersheads_ref_flow", value := (sh.previousFlow : Rat),
      labels := showerHeadLabels sh }
  , { name := "hydrao_showersheads_avg_flow", value := sh.flow,
      labels := showerHeadLabels sh }
  , { name := "hydrao_showersheads_last_sync_is_complete", value := (sh.isLastSyncComplete : Rat),
      labels := showerHeadLabels sh } ]

/-- The per-threshold-entry gauges, one per parsed threshold, labelled
additionally by the color category. -/
def thresholdGauges (sh : ShowerHead) (ts : List Threshold) : List Metric :=
  ts.map fun th =>
    { name := "hydrao_showersheads_threshold_request", value := (th.liter : Rat),
      labels := showerHeadLabels sh ++ [th.color] }

/-- The per-use-session gauges sent for each nested shower record. -/
def showerGauges (sh : ShowerHead) : List Metric :=
  sh.showers.flatMap fun sw =>
    [ { name := "hydrao_showers_flow", value := (sw.flow : Rat),
        labels := [sw.deviceUUID, toString sw.showerID] }
    , { name := "hydrao_showers_duration", value := (sw.duration : Rat),
        labels := [sw.deviceUUID, toString sw.showerID] }
    , { name := "hydrao_showers_temperature", value := (sw.temperature : Rat),
        labels := [sw.deviceUUID, toString sw.showerID] }
    , { name := "hydrao_showers_volume", value := (sw.volume : Rat),
        labels := [sw.deviceUUID, toString sw.showerID] }
    , { name := "hydrao_showers_soaping_time", value := (sw.soapingTime : Rat),
        labels := [sw.deviceUUID, toString sw.showerID] } ]

/-- collectShowerHeadData of the collector file.  The embedded threshold
document (a JSON string field) is parsed by the given parse function
(standing for json.Unmarshal); on parse failure the error is logged, the
thresholds slice stays empty, and every other gauge still emits.  Returns
the emitted metrics and the emitted error log lines. -/
def collectShowerHeadData (parse : String → Option (List Threshold))
    (sh : ShowerHead) : List Metric × List String :=
  match parse sh.thresholdRequest with
  | none =>
      (showerHeadBaseMetrics sh ++ showerGauges sh,
       ["Error unmarshalling thresholds"])
  | some ts =>
      (showerHeadBaseMetrics sh ++ thresholdGauges sh ts ++ showerGauges sh, [])

/-- The five top-level indicator metrics Collect always sends. -/
def topLevelMetrics (c : HydraoCollector) : List Metric :=
  [ { name := "hydrao_up", value := upValue c, labels := [] }
  , { name := "hydrao_refresh_interval_seconds",
      value := durationSeconds c.refreshInterval, labels := [] }
  , { name := "hydrao_last_refresh_time", value := convertTime c.lastRefresh,
      labels := [] }
  , { name := "hydrao_hydrao_last_refresh_duration_seconds",
      value := durationSeconds c.lastRefreshDuration, labels := [] }
  , { name := "hydrao_cache_updated_time", value := convertTime c.cacheTimestamp,
      labels := [] } ]

/-- The metric emission of Collect of the collector file: the top-level
indicators, then, when the cached slice is not nil, the per-device groups of
every cached record in order. -/
def Collect (parse : String → Option (List Threshold))
    (c : HydraoCollector) : List Metric :=
  topLevelMetrics c ++
    match c.cachedShowerHeadsData with
    | none => []
    | some shs => shs.flatMap fun sh => (collectShowerHeadData parse sh).1

/-- A system state for the scrape/refresh interleaving: the collector state
plus the launch times of the refresh tasks currently in flight. -/
structure SysState where
  col : HydraoCollector
  inflight : List Int
deriving DecidableEq

/-- Events of the interleaving: a scrape at some time (the scheduling part of
Collect), or the completion of the in-flight refresh task launched at the
given time, with the fetch outcome observed at endTime. -/
inductive Event where
  | scrape (now : Int)
  | complete (launch endTime : Int) (fetch : FetchResult)
deriving DecidableEq

/-- One atomic step.  A scrape launches a refresh task exactly when
now - lastRefresh >= refreshInterval (Collect lines 186-189); the launched
task immediately runs the first assignment of RefreshData.  A completion of
an in-flight task runs the remainder of RefreshData. -/
def step (s : SysState) (e : Event) : SysState :=
  match e with
  | Event.scrape now =>
      if s.col.refreshInterval ≤ now - s.col.lastRefresh then
        { col := refreshStart s.col now, inflight := now :: s.inflight }
      else s
  | Event.complete launch endTime fetch =>
      if launch ∈ s.inflight then
        { col := refreshFinish s.col launch endTime fetch
          inflight := s.inflight.erase launch }
      else s

/-- Run a sequence of events. -/
def run (s : SysState) (es : List Event) : SysState :=
  es.foldl step s

/-- The initial system state: a freshly constructed collector, nothing in
flight. -/
def init : SysState := { col := New, inflight := [] }

/-- The launch times of the refresh tasks actually launched along a trace,
in order. -/
def acceptedLaunches : SysState → List Event → List Int
  | _, [] => []
  | s, Event.scrape t :: es =>
      if s.col.refreshInterval ≤ t - s.col.lastRefresh then
        t :: acceptedLaunches (step s (Event.scrape t)) es
      else
        acceptedLaunches (step s (Event.scrape t)) es
  | s, Event.complete l et f :: es =>
      acceptedLaunches (step s (Event.complete l et f)) es

/-- The fetch outcomes of the refresh tasks actually completed along a
trace, in order. -/
def acceptedCompletes : SysState → List Event → List FetchResult
  | _, [] => []
  | s, Event.scrape t :: es => acceptedCompletes (step s (Event.scrape t)) es
  | s, Event.complete l et f :: es =>
      if l ∈ s.inflight then
        f :: acceptedCompletes (step s (Event.complete l et f)) es
      else
        acceptedCompletes (step s (Event.complete l et f)) es

/-- The cache commits performed along a trace: the launch time and fetched
data of every successfully completed refresh task, in order. -/
def acceptedCommits : SysState → List Event → List (Int × List ShowerHead)
  | _, [] => []
  | s, Event.scrape t :: es => acceptedCommits (step s (Event.scrape t)) es
  | s, Event.complete l et (FetchResult.failure e) :: es =>
      acceptedCommits (step s (Event.complete l et (FetchResult.failure e))) es
  | s, Event.complete l et (FetchResult.success shs) :: es =>
      if l ∈ s.inflight then
        (l, shs) :: acceptedCommits (step s (Event.complete l et (FetchResult.success shs))) es
      else
        acceptedCommits (step s (Event.complete l et (FetchResult.success shs))) es

/-- The error a completed fetch leaves in lastRefreshError. -/
def errOf : FetchResult → Option String
  | .failure e => some e
  | .success _ => none

/-- A sample nested shower record. -/
def sampleShower : Shower :=
  { deviceUUID := "dev1", showerID := 7, flow := 12, duration := 300,
    temperature := 38, volume := 45, soapingTime := 60 }

/-- A sample device record whose embedded threshold document does not
parse. -/
def sampleShowerHead : ShowerHead :=
  { deviceUUID := "dev1", type := "grey", label := "main",
    lastSyncDate := 1700000000000000000, refShowerDuration := 300,
    previousFlow := 8, flow := 9, isLastSyncComplete := 1,
    thresholdRequest := "not a json document", showers := [sampleShower] }

/-- A collector state caching exactly the sample record. -/
def sampleCollector : HydraoCollector :=
  { New with cachedShowerHeadsData := some [sampleShowerHead] }

end Collector

namespace Hydrao

/-- RefreshSession failure leaves the session unchanged. -/
theorem RefreshSession_failure_unchanged (s : SessionInfo) (now : Int)
    (r : HTTPResult) (e : String) (h : (RefreshSession s now r).2 = some e) :
    (RefreshSession s now r).1 = s := by
  unfold RefreshSession at h ⊢
  cases hp : processHTTPResponse r <;> simp [hp] at h ⊢

/-- C1 counterexample: at the exact boundary elapsed = tokenLifetime - 100s
(session lifetime 3600s, last renewed at 0, now = 3500s) doHTTPGet performs
no renewal: even with a failing renewal oracle it issues the GET with the old
token instead of renewing, contradicting the claim that renewal occurs at
the boundary. -/
theorem doHTTPGet_no_renewal_at_boundary :
    doHTTPGet sampleSession (3500 * second) (.transportError "boom") =
      (sampleSession, .ok { apiKey := "k", authorization := "oldAccess" }) := by
  rfl

/-- C1 amended: the proactive renewal in doHTTPGet triggers exactly when
elapsed = now - lastRenewed is strictly greater than tokenLifetime - 100
seconds.  When elapsed ≤ tokenLifetime - 100s no renewal happens and the GET
carries the old token; when elapsed > tokenLifetime - 100s the renewal runs
(here witnessed by a successful renewal replacing the session and the GET
carrying the new token). -/
theorem doHTTPGet_renews_iff_strict (s : SessionInfo) (now : Int)
    (p : TokenPayload) :
    (now - s.tokenRefresh ≤ s.expiresIn * second - 100 * second →
      ∀ r : HTTPResult,
        doHTTPGet s now r =
          (s, .ok { apiKey := s.config.apiKey, authorization := s.accessToken })) ∧
    (s.expiresIn * second - 100 * second < now - s.tokenRefresh →
      doHTTPGet s now (.response 200 (some p)) =
        ({ s with
            accessToken := p.accessToken
            refreshToken := p.refreshToken
            expiresIn := p.expiresIn
            tokenRefresh := now },
         .ok { apiKey := s.config.apiKey, authorization := p.accessToken })) := by
  constructor
  · intro h r
    unfold doHTTPGet
    rw [if_neg (not_lt.mpr h)]
  · intro h
    unfold doHTTPGet
    rw [if_pos h]
    simp [RefreshSession, processHTTPResponse]

/-- C1 witness: the amended renewal condition evaluated at concrete inputs on
both sides of the strict boundary. -/
theorem doHTTPGet_renews_iff_strict_witness :
    doHTTPGet sampleSession (3500 * second) (.response 500 none) =
      (sampleSession, .ok { apiKey := "k", authorization := "oldAccess" }) ∧
    doHTTPGet sampleSession (3500 * second + 1) (.response 200 (some samplePayload)) =
      ({ accessToken := "newAccess"
         refreshToken := "newRefresh"
         expiresIn := 7200
         tokenRefresh := 3500 * second + 1
         config := { email := "e", password := "p", apiKey := "k" } },
       .ok { apiKey := "k", authorization := "newAccess" }) :=
  ⟨(doHTTPGet_renews_iff_strict sampleSession (3500 * second) samplePayload).1
      (by decide) (.response 500 none),
   (doHTTPGet_renews_iff_strict sampleSession (3500 * second + 1) samplePayload).2
      (by decide)⟩

/-- C5 counterexample: with an expired token (lifetime 3600s, last renewed at
0, now = 4000s) and a renewal that fails with a transport error, doHTTPGet
returns the renewal error and issues no GET request at all, contradicting the
claim that the authorized GET is still attempted after a failed renewal. -/
theorem doHTTPGet_renewal_failure_skips_request :
    doHTTPGet sampleSession (4000 * second) (.transportError "renewal down") =
      (sampleSession, .error "renewal down") := by
  rfl

/-- C5 amended: when the proactive renewal inside doHTTPGet fails, the
previous session (token included) is left in place, but the authorized GET is
not attempted: doHTTPGet returns the renewal error as a locally generated
error and skips the upstream request. -/
theorem doHTTPGet_renewal_failure_no_request (s : SessionInfo) (now : Int)
    (r : HTTPResult) (e : String)
    (hdue : s.expiresIn * second - 100 * second < now - s.tokenRefresh)
    (hfail : (RefreshSession s now r).2 = some e) :
    doHTTPGet s now r = (s, .error e) := by
  unfold doHTTPGet
  rw [if_pos hdue]
  have h1 := RefreshSession_failure_unchanged s now r e hfail
  cases hr : RefreshSession s now r with
  | mk s2 oe =>
    rw [hr] at h1 hfail
    simp at h1 hfail
    subst h1 hfail
    simp

/-- C5 witness: the amended renewal-failure behavior at a concrete expired
session and failing renewal. -/
theorem doHTTPGet_renewal_failure_no_request_witness :
    doHTTPGet sampleSession (4000 * second) (.response 401 none) =
      (sampleSession, .error "bad http return code 401") :=
  doHTTPGet_renewal_failure_no_request sampleSession (4000 * second)
    (.response 401 none) "bad http return code 401" (by decide) (by decide)

end Hydrao

namespace Collector

/-- C2: a refresh attempt whose fetch fails leaves the cached snapshot and
the cache timestamp unchanged while still recording the attempt error, the
attempt timestamp and the attempt duration; a successful attempt replaces
the snapshot and the cache timestamp. -/
theorem RefreshData_failure_stale_serve (c : HydraoCollector)
    (now endTime : Int) (e : String) (shs : List ShowerHead) :
    (RefreshData c now endTime (.failure e)).cachedShowerHeadsData = c.cachedShowerHeadsData ∧
    (RefreshData c now endTime (.failure e)).cacheTimestamp = c.cacheTimestamp ∧
    (RefreshData c now endTime (.failure e)).lastRefreshError = some e ∧
    (RefreshData c now endTime (.failure e)).lastRefresh = now ∧
    (RefreshData c now endTime (.failure e)).lastRefreshDuration = endTime - now ∧
    (RefreshData c now endTime (.success shs)).cachedShowerHeadsData = some shs ∧
    (RefreshData c now endTime (.success shs)).cacheTimestamp = now := by
  exact ⟨rfl, rfl, rfl, rfl, rfl, rfl, rfl⟩

/-- C8: when the embedded threshold document of one device record fails to
parse, the failure is logged, only that record's per-threshold gauges are
omitted (its six base gauges and its per-shower gauges still emit), and
every other record in the snapshot still emits its full groups. -/
theorem threshold_parse_failure_isolated
    (p : String → Option (List Threshold)) (sh : ShowerHead)
    (l1 l2 : List ShowerHead) (c : HydraoCollector)
    (hp : p sh.thresholdRequest = none)
    (hc : c.cachedShowerHeadsData = some (l1 ++ sh :: l2)) :
    (collectShowerHeadData p sh).2 ≠ [] ∧
    (collectShowerHeadData p sh).1 = showerHeadBaseMetrics sh ++ showerGauges sh ∧
    Collect p c =
      topLevelMetrics c ++
        ((l1.flatMap fun x => (collectShowerHeadData p x).1) ++
          ((showerHeadBaseMetrics sh ++ showerGauges sh) ++
            (l2.flatMap fun x => (collectShowerHeadData p x).1))) := by
  refine ⟨?_, ?_, ?_⟩
  · simp [collectShowerHeadData, hp]
  · simp [collectShowerHeadData, hp]
  · simp only [Collect, hc, List.flatMap_append, List.flatMap_cons,
      collectShowerHeadData, hp, List.append_assoc]

/-- C8 witness: the isolation of a parse failure evaluated on the sample
snapshot whose only record has an unparsable threshold document. -/
theorem threshold_parse_failure_isolated_witness :
    (collectShowerHeadData (fun _ => none) sampleShowerHead).2 ≠ [] ∧
    (collectShowerHeadData (fun _ => none) sampleShowerHead).1 =
      showerHeadBaseMetrics sampleShowerHead ++ showerGauges sampleShowerHead ∧
    Collect (fun _ => none) sampleCollector =
      topLevelMetrics sampleCollector ++
        ((([] : List ShowerHead).flatMap fun x =>
            (collectShowerHeadData (fun _ => none) x).1) ++
          ((showerHeadBaseMetrics sampleShowerHead ++ showerGauges sampleShowerHead) ++
            (([] : List ShowerHead).flatMap fun x =>
              (collectShowerHeadData (fun _ => none) x).1))) :=
  threshold_parse_failure_isolated (fun _ => none) sampleShowerHead [] []
    sampleCollector rfl rfl

/-- C9: on an absent (nil) snapshot, Collect emits exactly the five
top-level indicator metrics and no per-device groups; a scrape never mutates
the snapshot, the cache timestamp, the last error or the last duration (its
only write is the launch of a refresh task recording the attempt time). -/
theorem collect_empty_snapshot (p : String → Option (List Threshold))
    (c : HydraoCollector) (s : SysState) (t : Int)
    (h : c.cachedShowerHeadsData = none) :
    Collect p c =
      [ { name := "hydrao_up", value := upValue c, labels := [] }
      , { name := "hydrao_refresh_interval_seconds",
          value := durationSeconds c.refreshInterval, labels := [] }
      , { name := "hydrao_last_refresh_time", value := convertTime c.lastRefresh,
          labels := [] }
      , { name := "hydrao_hydrao_last_refresh_duration_seconds",
          value := durationSeconds c.lastRefreshDuration, labels := [] }
      , { name := "hydrao_cache_updated_time", value := convertTime c.cacheTimestamp,
          labels := [] } ] ∧
    (step s (Event.scrape t)).col.cachedShowerHeadsData = s.col.cachedShowerHeadsData ∧
    (step s (Event.scrape t)).col.cacheTimestamp = s.col.cacheTimestamp ∧
    (step s (Event.scrape t)).col.lastRefreshError = s.col.lastRefreshError ∧
    (step s (Event.scrape t)).col.lastRefreshDuration = s.col.lastRefreshDuration := by
  refine ⟨?_, ?_, ?_, ?_, ?_⟩ <;>
    first
      | simp [Collect, topLevelMetrics, h]
      | (by_cases hc : s.col.refreshInterval ≤ t - s.col.lastRefresh <;>
          simp [step, hc, refreshStart])

/-- C9 witness: the empty-snapshot behavior evaluated at the freshly
constructed collector and a first scrape at time 100. -/
theorem collect_empty_snapshot_witness :
    Collect (fun _ => none) New =
      [ { name := "hydrao_up", value := upValue New, labels := [] }
      , { name := "hydrao_refresh_interval_seconds",
          value := durationSeconds New.refreshInterval, labels := [] }
      , { name := "hydrao_last_refresh_time", value := convertTime New.lastRefresh,
          labels := [] }
      , { name := "hydrao_hydrao_last_refresh_duration_seconds",
          value := durationSeconds New.lastRefreshDuration, labels := [] }
      , { name := "hydrao_cache_updated_time", value := convertTime New.cacheTimestamp,
          labels := [] } ] ∧
    (step init (Event.scrape 100)).col.cachedShowerHeadsData = init.col.cachedShowerHeadsData ∧
    (step init (Event.scrape 100)).col.cacheTimestamp = init.col.cacheTimestamp ∧
    (step init (Event.scrape 100)).col.lastRefreshError = init.col.lastRefreshError ∧
    (step init (Event.scrape 100)).col.lastRefreshDuration = init.col.lastRefreshDuration :=
  collect_empty_snapshot (fun _ => none) New init 100 rfl

/-- Running one more event folds one step. -/
theorem run_cons (s : SysState) (e : Event) (es : List Event) :
    run s (e :: es) = run (step s e) es := rfl

/-- The last element with default of a nonempty list is a member. -/
theorem getLastD_mem_of_ne_nil {α : Type} (l : List α) (d : α) (h : l ≠ []) :
    l.getLastD d ∈ l := by
  cases l with
  | nil => exact absurd rfl h
  | cons a l =>
    rw [List.getLastD_cons]
    exact List.getLastD_mem_cons l a

/-- A due scrape launches: the task records the attempt time and joins the
in-flight set. -/
theorem step_scrape_of_due (s : SysState) (t : Int)
    (h : s.col.refreshInterval ≤ t - s.col.lastRefresh) :
    step s (Event.scrape t) =
      { col := refreshStart s.col t, inflight := t :: s.inflight } := by
  simp [step, h]

/-- A scrape before the interval elapses changes nothing. -/
theorem step_scrape_of_not_due (s : SysState) (t : Int)
    (h : ¬ s.col.refreshInterval ≤ t - s.col.lastRefresh) :
    step s (Event.scrape t) = s := by
  simp [step, h]

/-- Completing an in-flight task applies the tail of RefreshData and removes
the task. -/
theorem step_complete_of_mem (s : SysState) (l et : Int) (f : FetchResult)
    (h : l ∈ s.inflight) :
    step s (Event.complete l et f) =
      { col := refreshFinish s.col l et f, inflight := s.inflight.erase l } := by
  simp [step, h]

/-- A completion event for a task not in flight changes nothing. -/
theorem step_complete_of_not_mem (s : SysState) (l et : Int) (f : FetchResult)
    (h : l ∉ s.inflight) :
    step s (Event.complete l et f) = s := by
  simp [step, h]

/-- The tail of RefreshData never touches the attempt timestamp. -/
theorem refreshFinish_lastRefresh (c : HydraoCollector) (now et : Int)
    (f : FetchResult) : (refreshFinish c now et f).lastRefresh = c.lastRefresh := by
  cases f <;> rfl

/-- The tail of RefreshData never touches the configured interval. -/
theorem refreshFinish_refreshInterval (c : HydraoCollector) (now et : Int)
    (f : FetchResult) :
    (refreshFinish c now et f).refreshInterval = c.refreshInterval := by
  cases f <;> rfl

/-- The tail of RefreshData records exactly the fetch outcome as the last
error. -/
theorem refreshFinish_lastRefreshError (c : HydraoCollector) (now et : Int)
    (f : FetchResult) :
    (refreshFinish c now et f).lastRefreshError = errOf f := by
  cases f <;> rfl

/-- No step changes the configured refresh interval. -/
theorem step_refreshInterval (s : SysState) (e : Event) :
    (step s e).col.refreshInterval = s.col.refreshInterval := by
  cases e with
  | scrape t =>
    by_cases h : s.col.refreshInterval ≤ t - s.col.lastRefresh
    · rw [step_scrape_of_due s t h]; rfl
    · rw [step_scrape_of_not_due s t h]
  | complete l et f =>
    by_cases h : l ∈ s.inflight
    · rw [step_complete_of_mem s l et f h]
      exact refreshFinish_refreshInterval s.col l et f
    · rw [step_complete_of_not_mem s l et f h]

/-- The refresh interval is invariant along every trace. -/
theorem run_refreshInterval (es : List Event) : ∀ s : SysState,
    (run s es).col.refreshInterval = s.col.refreshInterval := by
  induction es with
  | nil => intro s; rfl
  | cons e es ih =>
    intro s
    rw [run_cons, ih, step_refreshInterval]

/-- Along every trace, lastRefresh is the launch time of the most recently
launched refresh task (or the starting value when nothing launched). -/
theorem run_lastRefresh (es : List Event) : ∀ s : SysState,
    (run s es).col.lastRefresh = (acceptedLaunches s es).getLastD s.col.lastRefresh := by
  induction es with
  | nil => intro s; rfl
  | cons e es ih =>
    intro s
    rw [run_cons]
    cases e with
    | scrape t =>
      by_cases h : s.col.refreshInterval ≤ t - s.col.lastRefresh
      · have ha : acceptedLaunches s (Event.scrape t :: es) =
            t :: acceptedLaunches (step s (Event.scrape t)) es := by
          simp only [acceptedLaunches]
          rw [if_pos h]
        rw [ha, List.getLastD_cons, ih]
        congr 1
        rw [step_scrape_of_due s t h]
        rfl
      · have ha : acceptedLaunches s (Event.scrape t :: es) =
            acceptedLaunches (step s (Event.scrape t)) es := by
          simp only [acceptedLaunches]
          rw [if_neg h]
        rw [ha, ih]
        congr 1
        rw [step_scrape_of_not_due s t h]
    | complete l et f =>
      have ha : acceptedLaunches s (Event.complete l et f :: es) =
          acceptedLaunches (step s (Event.complete l et f)) es := by
        simp only [acceptedLaunches]
      rw [ha, ih]
      congr 1
      by_cases h : l ∈ s.inflight
      · rw [step_complete_of_mem s l et f h]
        exact refreshFinish_lastRefresh s.col l et f
      · rw [step_complete_of_not_mem s l et f h]

/-- Along every trace, lastRefreshError reflects the outcome of the most
recently completed refresh task (or the starting value when nothing
completed). -/
theorem run_lastRefreshError (es : List Event) : ∀ s : SysState,
    (run s es).col.lastRefreshError =
      ((acceptedCompletes s es).map errOf).getLastD s.col.lastRefreshError := by
  induction es with
  | nil => intro s; rfl
  | cons e es ih =>
    intro s
    rw [run_cons]
    cases e with
    | scrape t =>
      have ha : acceptedCompletes s (Event.scrape t :: es) =
          acceptedCompletes (step s (Event.scrape t)) es := by
        simp only [acceptedCompletes]
      rw [ha, ih]
      congr 1
      by_cases h : s.col.refreshInterval ≤ t - s.col.lastRefresh
      · rw [step_scrape_of_due s t h]
        rfl
      · rw [step_scrape_of_not_due s t h]
    | complete l et f =>
      by_cases h : l ∈ s.inflight
      · have ha : acceptedCompletes s (Event.complete l et f :: es) =
            f :: acceptedCompletes (step s (Event.complete l et f)) es := by
          simp only [acceptedCompletes]
          rw [if_pos h]
        rw [ha, List.map_cons, List.getLastD_cons, ih]
        congr 1
        rw [step_complete_of_mem s l et f h]
        exact refreshFinish_lastRefreshError s.col l et f
      · have ha : acceptedCompletes s (Event.complete l et f :: es) =
            acceptedCompletes (step s (Event.complete l et f)) es := by
          simp only [acceptedCompletes]
          rw [if_neg h]
        rw [ha, ih]
        congr 1
        rw [step_complete_of_not_mem s l et f h]

/-- Along every trace, cacheTimestamp and cachedShowerHeadsData equal, as a
pair, the most recent successful commit (or the starting pair). -/
theorem run_cachePair (es : List Event) : ∀ s : SysState,
    ((run s es).col.cacheTimestamp, (run s es).col.cachedShowerHeadsData) =
      ((acceptedCommits s es).map fun pr => (pr.1, some pr.2)).getLastD
        (s.col.cacheTimestamp, s.col.cachedShowerHeadsData) := by
  induction es with
  | nil => intro s; rfl
  | cons e es ih =>
    intro s
    rw [run_cons]
    cases e with
    | scrape t =>
      have ha : acceptedCommits s (Event.scrape t :: es) =
          acceptedCommits (step s (Event.scrape t)) es := by
        simp only [acceptedCommits]
      rw [ha, ih]
      congr 1
      by_cases h : s.col.refreshInterval ≤ t - s.col.lastRefresh
      · rw [step_scrape_of_due s t h]
        rfl
      · rw [step_scrape_of_not_due s t h]
    | complete l et f =>
      cases f with
      | failure msg =>
        have ha : acceptedCommits s (Event.complete l et (FetchResult.failure msg) :: es) =
            acceptedCommits (step s (Event.complete l et (FetchResult.failure msg))) es := by
          simp only [acceptedCommits]
        rw [ha, ih]
        congr 1
        by_cases h : l ∈ s.inflight
        · rw [step_complete_of_mem s l et (FetchResult.failure msg) h]
          rfl
        · rw [step_complete_of_not_mem s l et (FetchResult.failure msg) h]
      | success shs =>
        by_cases h : l ∈ s.inflight
        · have ha : acceptedCommits s (Event.complete l et (FetchResult.success shs) :: es) =
              (l, shs) :: acceptedCommits (step s (Event.complete l et (FetchResult.success shs))) es := by
            simp only [acceptedCommits]
            rw [if_pos h]
          rw [ha, List.map_cons, List.getLastD_cons, ih]
          congr 1
          rw [step_complete_of_mem s l et (FetchResult.success shs) h]
          rfl
        · have ha : acceptedCommits s (Event.complete l et (FetchResult.success shs) :: es) =
              acceptedCommits (step s (Event.complete l et (FetchResult.success shs))) es := by
            simp only [acceptedCommits]
            rw [if_neg h]
          rw [ha, ih]
          congr 1
          rw [step_complete_of_not_mem s l et (FetchResult.success shs) h]

/-- Every launch time recorded along a trace comes from a scrape event of
that trace. -/
theorem acceptedLaunches_mem_scrape (es : List Event) : ∀ (s : SysState) (t : Int),
    t ∈ acceptedLaunches s es → Event.scrape t ∈ es := by
  induction es with
  | nil =>
    intro s t h
    simp [acceptedLaunches] at h
  | cons e es ih =>
    intro s t h
    cases e with
    | scrape u =>
      by_cases hc : s.col.refreshInterval ≤ u - s.col.lastRefresh
      · have ha : acceptedLaunches s (Event.scrape u :: es) =
            u :: acceptedLaunches (step s (Event.scrape u)) es := by
          simp only [acceptedLaunches]
          rw [if_pos hc]
        rw [ha] at h
        rcases List.mem_cons.mp h with h1 | h1
        · subst h1
          exact List.mem_cons_self _ _
        · exact List.mem_cons_of_mem _ (ih _ _ h1)
      · have ha : acceptedLaunches s (Event.scrape u :: es) =
            acceptedLaunches (step s (Event.scrape u)) es := by
          simp only [acceptedLaunches]
          rw [if_neg hc]
        rw [ha] at h
        exact List.mem_cons_of_mem _ (ih _ _ h)
    | complete l et f =>
      have ha : acceptedLaunches s (Event.complete l et f :: es) =
          acceptedLaunches (step s (Event.complete l et f)) es := by
        simp only [acceptedLaunches]
      rw [ha] at h
      exact List.mem_cons_of_mem _ (ih _ _ h)

/-- C3 counterexample: after a scrape at time 100 launches the first refresh
and before that refresh completes, no refresh attempt has ever completed
(so, in particular, none has ever succeeded), yet the up gauge already reads
1 rather than the 0 the claim demands on every scrape before the first
successful refresh: the in-flight attempt has set lastRefresh while
lastRefreshError is still nil. -/
theorem up_one_before_any_success :
    acceptedCompletes init [Event.scrape 100] = [] ∧
    (run init [Event.scrape 100]).inflight = [100] ∧
    upValue (run init [Event.scrape 100]).col = 1 := by
  decide

/-- C3 amended: the up gauge reads 0 exactly when no refresh attempt has
ever been launched or the most recently completed attempt ended in error (up
reflects completions only: a scrape between the launch and the completion of
the first attempt already reads 1). -/
theorem up_zero_iff_no_launch_or_last_failure (es : List Event)
    (hpos : ∀ t : Int, Event.scrape t ∈ es → 0 < t) :
    upValue (run init es).col = 0 ↔
      (acceptedLaunches init es = [] ∨
        ∃ e : String,
          ((acceptedCompletes init es).map errOf).getLastD none = some e) := by
  have hup : ∀ c : HydraoCollector,
      (upValue c = 0 ↔ (c.lastRefresh = 0 ∨ c.lastRefreshError ≠ none)) := by
    intro c
    unfold upValue
    split
    next h => simp [h]
    next h => simp [h]
  have hlr : (run init es).col.lastRefresh = (acceptedLaunches init es).getLastD 0 :=
    run_lastRefresh es init
  have herr : (run init es).col.lastRefreshError =
      ((acceptedCompletes init es).map errOf).getLastD none :=
    run_lastRefreshError es init
  rw [hup]
  constructor
  · rintro (h | h)
    · left
      by_contra hne
      have hm := getLastD_mem_of_ne_nil (acceptedLaunches init es) 0 hne
      have hs := acceptedLaunches_mem_scrape es init _ hm
      have hgt := hpos _ hs
      rw [hlr] at h
      omega
    · right
      rw [herr] at h
      exact Option.ne_none_iff_exists'.mp h
  · rintro (h | ⟨e, he⟩)
    · left
      rw [hlr, h]
      rfl
    · right
      rw [herr, he]
      simp

/-- C3 witness: the amended up characterization evaluated on the concrete
trace launching one refresh at 100 and completing it at 200 with a fetch
error. -/
theorem up_zero_iff_no_launch_or_last_failure_witness :
    upValue (run init
        [Event.scrape 100, Event.complete 100 200 (FetchResult.failure "fetch failed")]).col = 0 ↔
      (acceptedLaunches init
          [Event.scrape 100, Event.complete 100 200 (FetchResult.failure "fetch failed")] = [] ∨
        ∃ e : String,
          ((acceptedCompletes init
              [Event.scrape 100, Event.complete 100 200 (FetchResult.failure "fetch failed")]).map
            errOf).getLastD none = some e) :=
  up_zero_iff_no_launch_or_last_failure
    [Event.scrape 100, Event.complete 100 200 (FetchResult.failure "fetch failed")]
    (by
      intro t ht
      simp at ht
      omega)

/-- C4 counterexample: Collect has no in-flight guard: a scrape at 100
launches a refresh task; while it is still in flight, a scrape at 200
satisfies the interval condition again and launches a second task, so two
refresh tasks are in flight at once, contradicting the single-flight
claim. -/
theorem two_refresh_tasks_in_flight :
    (run init [Event.scrape 100, Event.scrape 200]).inflight = [200, 100] ∧
    2 ≤ (run init [Event.scrape 100, Event.scrape 200]).inflight.length := by
  decide

/-- C4 amended: single-flight holds only under a proviso the code does not
enforce: a scrape preserves at-most-one-in-flight when nothing is in flight
or when it arrives within the refresh interval of the latest recorded
attempt (it then launches nothing and reads the current stale state), and
completions always preserve it; a scrape at or past the interval while a
task is still running launches an overlapping second task. -/
theorem single_flight_conditional (s : SysState) (t l et : Int)
    (f : FetchResult) (h1 : s.inflight.length ≤ 1) :
    ((s.inflight = [] ∨ t - s.col.lastRefresh < s.col.refreshInterval) →
      (step s (Event.scrape t)).inflight.length ≤ 1) ∧
    (step s (Event.complete l et f)).inflight.length ≤ 1 := by
  constructor
  · rintro (hemp | hlt)
    · by_cases hc : s.col.refreshInterval ≤ t - s.col.lastRefresh
      · rw [step_scrape_of_due s t hc]
        simp [hemp]
      · rw [step_scrape_of_not_due s t hc]
        exact h1
    · have hc : ¬ s.col.refreshInterval ≤ t - s.col.lastRefresh := by omega
      rw [step_scrape_of_not_due s t hc]
      exact h1
  · by_cases hm : l ∈ s.inflight
    · rw [step_complete_of_mem s l et f hm]
      show (s.inflight.erase l).length ≤ 1
      exact le_trans (List.length_erase_le l s.inflight) h1
    · rw [step_complete_of_not_mem s l et f hm]
      exact h1

/-- C4 witness: the conditional single-flight preservation evaluated at the
initial state for a first scrape at 5 and a stray completion event. -/
theorem single_flight_conditional_witness :
    (step init (Event.scrape 5)).inflight.length ≤ 1 ∧
    (step init (Event.complete 0 0 (FetchResult.failure "e"))).inflight.length ≤ 1 :=
  ⟨(single_flight_conditional init 5 0 0 (FetchResult.failure "e") (by decide)).1
      (Or.inl rfl),
   (single_flight_conditional init 5 0 0 (FetchResult.failure "e") (by decide)).2⟩

/-- C6: a scrape at time t launches an asynchronous refresh exactly when
t - lastAttempt >= refreshInterval; at launch the attempt time is recorded
immediately, in the post-state of the scrape step itself and before any
completion of the fetch, so a further scrape arriving within the interval of
the launch, while the fetch is still in flight, does not observe the
interval condition as satisfied and launches nothing. -/
theorem scrape_launch_iff_interval (s : SysState) (t u : Int) :
    (s.col.refreshInterval ≤ t - s.col.lastRefresh →
      (step s (Event.scrape t)).col.lastRefresh = t ∧
      (step s (Event.scrape t)).inflight = t :: s.inflight ∧
      (u - t < s.col.refreshInterval →
        step (step s (Event.scrape t)) (Event.scrape u) = step s (Event.scrape t))) ∧
    (t - s.col.lastRefresh < s.col.refreshInterval →
      step s (Event.scrape t) = s) := by
  constructor
  · intro h
    rw [step_scrape_of_due s t h]
    refine ⟨rfl, rfl, ?_⟩
    intro hu
    apply step_scrape_of_not_due
    show ¬ s.col.refreshInterval ≤ u - t
    omega
  · intro h
    exact step_scrape_of_not_due s t (by omega)

/-- C6 witness: the launch condition and the immediate attempt-time write
evaluated at the initial state, a launching scrape at 100, a non-launching
follow-up at 105, and a scrape at -5 that is before the interval. -/
theorem scrape_launch_iff_interval_witness :
    (step init (Event.scrape 100)).col.lastRefresh = 100 ∧
    (step init (Event.scrape 100)).inflight = [100] ∧
    step (step init (Event.scrape 100)) (Event.scrape 105) = step init (Event.scrape 100) ∧
    step init (Event.scrape (-5)) = init := by
  have h := (scrape_launch_iff_interval init 100 105).1 (by decide)
  exact ⟨h.1, h.2.1, h.2.2 (by decide),
    (scrape_launch_iff_interval init (-5) 0).2 (by decide)⟩

/-- C7: along every trace, the cache timestamp and the cached snapshot
always equal, as a pair, the launch time and data of the most recent
successful refresh commit (or the initial (0, nil) pair): the two fields are
replaced as one unit under cacheLock, so no reader ever observes a snapshot
paired with a timestamp from a different commit. -/
theorem cache_pair_single_unit (es : List Event) :
    ((run init es).col.cacheTimestamp, (run init es).col.cachedShowerHeadsData) =
      ((acceptedCommits init es).map fun pr => (pr.1, some pr.2)).getLastD (0, none) :=
  run_cachePair es init

/-- C10: the refresh interval fixed by New is the untyped Go constant 10
assigned to a time.Duration, i.e. 10 nanoseconds: the exported interval
gauge reports 10/1e9 seconds, the interval never changes along any trace,
and any scrape at least 10ns after the recorded last attempt satisfies the
interval check and launches a refresh, so effectively every scrape launches
one. -/
theorem refresh_interval_ten_nanoseconds
    (p : String → Option (List Threshold)) (es : List Event) (t : Int)
    (h : 10 ≤ t - (run init es).col.lastRefresh) :
    New.refreshInterval = 10 ∧
    durationSeconds New.refreshInterval = 10 / 1000000000 ∧
    (run init es).col.refreshInterval = 10 ∧
    (Collect p (run init es).col)[1]? =
      some { name := "hydrao_refresh_interval_seconds",
             value := 10 / 1000000000, labels := [] } ∧
    (step (run init es) (Event.scrape t)).inflight = t :: (run init es).inflight := by
  have hint : (run init es).col.refreshInterval = 10 := by
    rw [run_refreshInterval es init]
    rfl
  have hdue : (run init es).col.refreshInterval ≤ t - (run init es).col.lastRefresh := by
    rw [hint]
    exact h
  refine ⟨rfl, ?_, hint, ?_, ?_⟩
  · norm_num [durationSeconds, New]
  · simp only [Collect, topLevelMetrics, List.cons_append, List.getElem?_cons_succ,
      List.getElem?_cons_zero, hint, Option.some.injEq]
    norm_num [durationSeconds]
  · rw [step_scrape_of_due (run init es) t hdue]

/-- C10 witness: the 10-nanosecond interval conclusions evaluated at the
empty trace and a scrape at time 50. -/
theorem refresh_interval_ten_nanoseconds_witness :
    New.refreshInterval = 10 ∧
    durationSeconds New.refreshInterval = 10 / 1000000000 ∧
    (run init []).col.refreshInterval = 10 ∧
    (Collect (fun _ => none) (run init []).col)[1]? =
      some { name := "hydrao_refresh_interval_seconds",
             value := 10 / 1000000000, labels := [] } ∧
    (step (run init []) (Event.scrape 50)).inflight = 50 :: (run init []).inflight :=
  refresh_interval_ten_nanoseconds (fun _ => none) [] 50 (by decide)

end Collector
